import Mathlib

/-!
Shallow embedding of src/daily_sync/sync_xingxiu_data.py.

Conventions of the embedding:
* Python scalar values (the values occurring in the JSON records and in the
  mapped row dictionaries) are modelled by the inductive type Value; Python
  float is modelled exactly as a rational number Rat.
* Fallible Python code is modelled in Except PyErr; a Python try/except
  block becomes a match on the Except result.  Functions in which every
  raise is caught still carry the Except type so that never raises is a
  real statement about the embedding.
* The MySQL table is modelled as a list of rows; executemany of the
  INSERT ... ON DUPLICATE KEY UPDATE statement is modelled as a left fold
  of a single-row upsert that overwrites every non-key column (which,
  together with the key columns being equal, replaces the whole row).
* Library functions of CPython (float, str, datetime.strptime,
  datetime.fromisoformat, strftime) are modelled by executable Lean
  functions that follow the CPython behaviour on the inputs the script can
  feed them; the few known simplifications (float repr of exotic
  rationals, inf/nan literals, underscores in numeric literals) are noted
  next to the definitions and are not observable by any theorem below.
-/

namespace XingxiuSync

/-- Model of a Python scalar value as it occurs in the JSON payload and in
the row dictionaries: None, bool, int, float (modelled as an exact
rational) or str. -/
inductive Value : Type where
  | none : Value
  | bool : Bool → Value
  | int : Int → Value
  | float : Rat → Value
  | str : String → Value
deriving DecidableEq, Repr

/-- Python exception classes raised by the primitives the script uses. -/
inductive PyErr : Type where
  | typeError : PyErr
  | valueError : PyErr
deriving DecidableEq, Repr

/-- Python truthiness of a scalar: None, False, 0, 0.0 and the empty
string are falsy, everything else is truthy. -/
def pyTruthy : Value → Bool
  | Value.none => false
  | Value.bool b => b
  | Value.int n => n ≠ 0
  | Value.float q => q ≠ 0
  | Value.str s => s ≠ ""

/-- The Python builtin str applied to a scalar.  For floats CPython
prints a decimal repr; we print num/den instead.  In to_decimal this is
unobservable (the numeric fallback float(x) recovers the exact value);
in to_int it means a float input yields None where CPython truncates,
a divergence no claim observes (the record fields routed through to_int
are only checked for totality, and concrete witnesses use ints and
strings). -/
def pyStr : Value → String
  | Value.none => "None"
  | Value.bool b => if b then "True" else "False"
  | Value.int n => toString n
  | Value.float q => toString q.num ++ "/" ++ toString q.den
  | Value.str s => s

/-- Python str.strip(): drop whitespace from both ends (list based so
that it computes by kernel reduction). -/
def pyStrip (s : String) : String :=
  String.mk (((s.toList.dropWhile Char.isWhitespace).reverse.dropWhile
    Char.isWhitespace).reverse)

/-- Python str.lower() on the ASCII range the script meets. -/
def pyLower (s : String) : String := String.mk (s.toList.map Char.toLower)

/-- Python str.replace(c, r) for a one-character needle, the only shape
the script uses (commas and the letter Z). -/
def replaceChar (s : String) (c : Char) (r : String) : String :=
  String.mk (s.toList.foldr (fun ch acc => if ch = c then r.toList ++ acc else ch :: acc) [])

/-- Python `a or b` on scalars: b when a is falsy, else a. -/
def pyOr (a b : Value) : Value := if pyTruthy a then a else b

/-- A Python dict with string keys, as produced by json parsing of one
record. -/
def Dict : Type := List (String × Value)

/-- Python dict.get with default None: the value under the key, or None
when the key is absent. -/
def dget (r : Dict) (k : String) : Value :=
  match List.lookup k r with
  | Option.some v => v
  | Option.none => Value.none

/-- Numeric value of a list of decimal digit characters. -/
def digitsToNat (ds : List Char) : Nat :=
  ds.foldl (fun a c => a * 10 + (c.toNat - 48)) 0

/-- 10 ^ e as a rational, for an integer exponent. -/
def ratPow10 (e : Int) : Rat :=
  if 0 ≤ e then ((10 : Rat) ^ e.toNat) else 1 / ((10 : Rat) ^ (-e).toNat)

/-- Parse the optional exponent suffix of a float literal: empty, or
(e|E)(+|-)?digits consuming the rest of the input. -/
def parseExpPart : List Char → Option Int
  | [] => Option.some 0
  | c :: rest =>
    if c = 'e' ∨ c = 'E' then
      match rest with
      | '+' :: ds =>
        if ds ≠ [] ∧ ds.all Char.isDigit then Option.some (digitsToNat ds : Int) else Option.none
      | '-' :: ds =>
        if ds ≠ [] ∧ ds.all Char.isDigit then Option.some (-(digitsToNat ds : Int)) else Option.none
      | ds =>
        if ds ≠ [] ∧ ds.all Char.isDigit then Option.some (digitsToNat ds : Int) else Option.none
    else Option.none

/-- Parse an unsigned float literal: digits, optional dot with optional
further digits (at least one digit overall), optional exponent. -/
def parseUnsignedFloat (cs : List Char) : Option Rat :=
  let ip := cs.takeWhile Char.isDigit
  let rest := cs.dropWhile Char.isDigit
  match rest with
  | '.' :: rest2 =>
    let fp := rest2.takeWhile Char.isDigit
    let rest3 := rest2.dropWhile Char.isDigit
    if ip = [] ∧ fp = [] then Option.none
    else
      match parseExpPart rest3 with
      | Option.some e =>
        Option.some (((digitsToNat (ip ++ fp) : Rat) / ratPow10 (fp.length : Int)) * ratPow10 e)
      | Option.none => Option.none
  | _ =>
    if ip = [] then Option.none
    else
      match parseExpPart rest with
      | Option.some e => Option.some ((digitsToNat ip : Rat) * ratPow10 e)
      | Option.none => Option.none

/-- Model of the Python builtin float on a string: strip whitespace,
optional sign, then the decimal literal grammar.  ValueError on failure.
(Simplification: the literals inf and nan and digit underscores are
rejected; the script never observes the difference because every such
call site catches the exception or cannot receive those strings.) -/
def floatOfString (s : String) : Except PyErr Rat :=
  match (pyStrip s).toList with
  | '+' :: rest =>
    match parseUnsignedFloat rest with
    | Option.some q => Except.ok q
    | Option.none => Except.error PyErr.valueError
  | '-' :: rest =>
    match parseUnsignedFloat rest with
    | Option.some q => Except.ok (-q)
    | Option.none => Except.error PyErr.valueError
  | cs =>
    match parseUnsignedFloat cs with
    | Option.some q => Except.ok q
    | Option.none => Except.error PyErr.valueError

/-- Model of the Python builtin float on a scalar value: numbers and bools
convert, strings parse, None raises TypeError. -/
def pyFloatOf : Value → Except PyErr Rat
  | Value.none => Except.error PyErr.typeError
  | Value.bool b => Except.ok (if b then 1 else 0)
  | Value.int n => Except.ok (n : Rat)
  | Value.float q => Except.ok q
  | Value.str s => floatOfString s

/-- Truncation toward zero, the behaviour of the Python builtin int on a
float. -/
def ratTrunc (q : Rat) : Int := Int.tdiv q.num (q.den : Int)

/-- Gregorian leap year test. -/
def isLeap (y : Nat) : Bool := (y % 4 = 0 ∧ y % 100 ≠ 0) ∨ y % 400 = 0

/-- Number of days in a month of a given year. -/
def daysInMonth (y m : Nat) : Nat :=
  if m = 2 then (if isLeap y then 29 else 28)
  else if m = 4 ∨ m = 6 ∨ m = 9 ∨ m = 11 then 30
  else 31

/-- Validity of a civil date as checked by the datetime constructor:
year 1..9999, month 1..12, day within the month. -/
def validDate (y m d : Nat) : Bool :=
  1 ≤ y ∧ y ≤ 9999 ∧ 1 ≤ m ∧ m ≤ 12 ∧ 1 ≤ d ∧ d ≤ daysInMonth y m

/-- Validity of a time of day. -/
def validTime (hh mm ss : Nat) : Bool := hh ≤ 23 ∧ mm ≤ 59 ∧ ss ≤ 59

/-- Zero-padded two-digit decimal, as produced by strftime %m, %d, %H,
%M and %S. -/
def pad2 (n : Nat) : String := if n < 10 then "0" ++ toString n else toString n

/-- Four-digit year as produced by strftime %Y for the years the script
handles (all parsed years below 10000 are printed unpadded when at least
1000, zero padded below; only padded output differs across platforms for
years below 1000 and is never reached by the claims). -/
def pad4 (n : Nat) : String :=
  if n < 10 then "000" ++ toString n
  else if n < 100 then "00" ++ toString n
  else if n < 1000 then "0" ++ toString n
  else toString n

/-- strftime with format %Y-%m-%d. -/
def fmtDate (y m d : Nat) : String := pad4 y ++ "-" ++ pad2 m ++ "-" ++ pad2 d

/-- strftime with format %Y-%m-%d %H:%M:%S. -/
def fmtDateTime (y m d hh mm ss : Nat) : String :=
  fmtDate y m d ++ " " ++ pad2 hh ++ ":" ++ pad2 mm ++ ":" ++ pad2 ss

/-- Split a run of leading digits from the input. -/
def spanDigits (cs : List Char) : List Char × List Char :=
  (cs.takeWhile Char.isDigit, cs.dropWhile Char.isDigit)

/-- One to two digits whose value lies between lo and hi, as matched by
the strptime patterns for %m, %d, %H, %M and %S next to a separator
(the regular expression alternatives for these fields accept exactly the
one and two digit strings in range, excluding 0 where lo is 1). -/
def fieldOk (ds : List Char) (lo hi : Nat) : Bool :=
  (ds.length = 1 ∨ ds.length = 2) ∧ lo ≤ digitsToNat ds ∧ digitsToNat ds ≤ hi

/-- strptime %Y-%m-%d or %Y/%m/%d (sep is the separator): a four-digit
year, then month and day fields of one or two digits, consuming the whole
input, followed by the calendar validity check done by the datetime
constructor. -/
def parseSepYMD (sep : Char) (s : String) : Option (Nat × Nat × Nat) :=
  let (ys, r1) := spanDigits s.toList
  if ys.length = 4 then
    match r1 with
    | c1 :: r2 =>
      if c1 = sep then
        let (ms, r3) := spanDigits r2
        if fieldOk ms 1 12 then
          match r3 with
          | c2 :: r4 =>
            if c2 = sep then
              let (ds, r5) := spanDigits r4
              if fieldOk ds 1 31 ∧ r5 = [] ∧ validDate (digitsToNat ys) (digitsToNat ms) (digitsToNat ds) then
                Option.some (digitsToNat ys, digitsToNat ms, digitsToNat ds)
              else Option.none
            else Option.none
          | [] => Option.none
        else Option.none
      else Option.none
    | [] => Option.none
  else Option.none

/-- strptime %d-%m-%Y or %d/%m/%Y: day and month fields of one or two
digits, then a four-digit year, consuming the whole input. -/
def parseSepDMY (sep : Char) (s : String) : Option (Nat × Nat × Nat) :=
  let (ds, r1) := spanDigits s.toList
  if fieldOk ds 1 31 then
    match r1 with
    | c1 :: r2 =>
      if c1 = sep then
        let (ms, r3) := spanDigits r2
        if fieldOk ms 1 12 then
          match r3 with
          | c2 :: r4 =>
            if c2 = sep then
              let (ys, r5) := spanDigits r4
              if ys.length = 4 ∧ r5 = [] ∧ validDate (digitsToNat ys) (digitsToNat ms) (digitsToNat ds) then
                Option.some (digitsToNat ys, digitsToNat ms, digitsToNat ds)
              else Option.none
            else Option.none
          | [] => Option.none
        else Option.none
      else Option.none
    | [] => Option.none
  else Option.none

/-- strptime %Y%m%d: the whole input is digits; after the four-digit year
the month/day split is chosen as the strptime regular expression does by
backtracking, preferring two-digit month, then two-digit day; the chosen
split is then calendar checked. -/
def parseCompact (s : String) : Option (Nat × Nat × Nat) :=
  let cs := s.toList
  if cs ≠ [] ∧ cs.all Char.isDigit ∧ 6 ≤ cs.length ∧ cs.length ≤ 8 then
    let y := digitsToNat (cs.take 4)
    let rest := cs.drop 4
    let pick :=
      if rest.length = 4 ∧ 1 ≤ digitsToNat (rest.take 2) ∧ digitsToNat (rest.take 2) ≤ 12 ∧
          1 ≤ digitsToNat (rest.drop 2) ∧ digitsToNat (rest.drop 2) ≤ 31 then
        Option.some (digitsToNat (rest.take 2), digitsToNat (rest.drop 2))
      else if rest.length = 3 ∧ 1 ≤ digitsToNat (rest.take 2) ∧ digitsToNat (rest.take 2) ≤ 12 ∧
          1 ≤ digitsToNat (rest.drop 2) ∧ digitsToNat (rest.drop 2) ≤ 9 then
        Option.some (digitsToNat (rest.take 2), digitsToNat (rest.drop 2))
      else if rest.length = 3 ∧ 1 ≤ digitsToNat (rest.take 1) ∧ digitsToNat (rest.take 1) ≤ 9 ∧
          1 ≤ digitsToNat (rest.drop 1) ∧ digitsToNat (rest.drop 1) ≤ 31 then
        Option.some (digitsToNat (rest.take 1), digitsToNat (rest.drop 1))
      else if rest.length = 2 ∧ 1 ≤ digitsToNat (rest.take 1) ∧ digitsToNat (rest.take 1) ≤ 9 ∧
          1 ≤ digitsToNat (rest.drop 1) ∧ digitsToNat (rest.drop 1) ≤ 9 then
        Option.some (digitsToNat (rest.take 1), digitsToNat (rest.drop 1))
      else Option.none
    match pick with
    | Option.some (m, d) => if validDate y m d then Option.some (y, m, d) else Option.none
    | Option.none => Option.none
  else Option.none

/-- Parse H:M:S with fields of one or two digits, consuming the whole
input, with the strptime range checks for %H, %M and %S. -/
def parseHMS (cs : List Char) : Option (Nat × Nat × Nat) :=
  let (hs, r1) := spanDigits cs
  if fieldOk hs 0 23 then
    match r1 with
    | ':' :: r2 =>
      let (ms, r3) := spanDigits r2
      if fieldOk ms 0 59 then
        match r3 with
        | ':' :: r4 =>
          let (ss, r5) := spanDigits r4
          if fieldOk ss 0 59 ∧ r5 = [] then
            Option.some (digitsToNat hs, digitsToNat ms, digitsToNat ss)
          else Option.none
        | _ => Option.none
      else Option.none
    | _ => Option.none
  else Option.none

/-- strptime %Y-%m-%d %H:%M:%S or %Y/%m/%d %H:%M:%S: the date part as
above, a run of at least one space (whitespace in a strptime format
matches a whitespace run), then the time part. -/
def parseSepYMDHMS (sep : Char) (s : String) : Option (Nat × Nat × Nat × Nat × Nat × Nat) :=
  let cs := s.toList
  let dp := cs.takeWhile (fun c => c ≠ ' ')
  let r := cs.dropWhile (fun c => c ≠ ' ')
  match r with
  | ' ' :: _ =>
    let tp := r.dropWhile (fun c => c = ' ')
    match parseSepYMD sep (String.mk dp), parseHMS tp with
    | Option.some (y, m, d), Option.some (hh, mm, ss) => Option.some (y, m, d, hh, mm, ss)
    | _, _ => Option.none
  | _ => Option.none

/-- Exactly two digits at the head of the input. -/
def take2 (cs : List Char) : Option (Nat × List Char) :=
  match cs with
  | a :: b :: rest =>
    if a.isDigit ∧ b.isDigit then Option.some (digitsToNat [a, b], rest) else Option.none
  | _ => Option.none

/-- Exactly four digits at the head of the input. -/
def take4 (cs : List Char) : Option (Nat × List Char) :=
  match cs with
  | a :: b :: c :: d :: rest =>
    if a.isDigit ∧ b.isDigit ∧ c.isDigit ∧ d.isDigit then
      Option.some (digitsToNat [a, b, c, d], rest)
    else Option.none
  | _ => Option.none

/-- A single expected character at the head of the input. -/
def expectChar (c : Char) : List Char → Option (List Char)
  | x :: rest => if x = c then Option.some rest else Option.none
  | [] => Option.none

/-- ISO time part: HH, optionally :MM, optionally :SS, optionally a
fractional part of one to six digits after a dot or comma. -/
def parseIsoTime (cs : List Char) : Option (Nat × Nat × Nat × List Char) := do
  let (hh, r1) ← take2 cs
  match r1 with
  | ':' :: r2 => do
    let (mm, r3) ← take2 r2
    match r3 with
    | ':' :: r4 => do
      let (ss, r5) ← take2 r4
      match r5 with
      | '.' :: r6 =>
        let fs := r6.takeWhile Char.isDigit
        if 1 ≤ fs.length ∧ fs.length ≤ 6 then
          Option.some (hh, mm, ss, r6.dropWhile Char.isDigit)
        else Option.none
      | ',' :: r6 =>
        let fs := r6.takeWhile Char.isDigit
        if 1 ≤ fs.length ∧ fs.length ≤ 6 then
          Option.some (hh, mm, ss, r6.dropWhile Char.isDigit)
        else Option.none
      | _ => Option.some (hh, mm, ss, r5)
    | _ => Option.some (hh, mm, 0, r3)
  | _ => Option.some (hh, 0, 0, r1)

/-- ISO UTC offset suffix: empty, or a sign followed by HH:MM and an
optional :SS, all in range, consuming the rest of the input. -/
def isoOffsetOk (cs : List Char) : Bool :=
  match cs with
  | [] => true
  | c :: rest =>
    if c = '+' ∨ c = '-' then
      match take2 rest with
      | Option.some (oh, r1) =>
        (match r1 with
        | ':' :: r2 =>
          match take2 r2 with
          | Option.some (om, r3) =>
            (match r3 with
            | [] => oh ≤ 23 ∧ om ≤ 59
            | ':' :: r4 =>
              match take2 r4 with
              | Option.some (os, r5) => r5 = [] ∧ oh ≤ 23 ∧ om ≤ 59 ∧ os ≤ 59
              | Option.none => false
            | _ => false)
          | Option.none => false
        | _ => false)
      | Option.none => false
    else false

/-- Model of datetime.fromisoformat as the script uses it (always after
replacing Z by +00:00): a YYYY-MM-DD date, optionally followed by T or a
space and a time with optional fractional seconds and optional numeric
offset.  The civil fields are returned unchanged; the offset does not
shift them, matching strftime on the aware datetime. -/
def fromiso (s : String) : Option (Nat × Nat × Nat × Nat × Nat × Nat) := do
  let (y, r1) ← take4 s.toList
  let r2 ← expectChar '-' r1
  let (m, r3) ← take2 r2
  let r4 ← expectChar '-' r3
  let (d, r5) ← take2 r4
  if validDate y m d then
    match r5 with
    | [] => Option.some (y, m, d, 0, 0, 0)
    | c :: rest =>
      if c = 'T' ∨ c = ' ' then do
        let (hh, mm, ss, r6) ← parseIsoTime rest
        if validTime hh mm ss ∧ isoOffsetOk r6 then Option.some (y, m, d, hh, mm, ss)
        else Option.none
      else Option.none
  else Option.none

/-- to_decimal from the script: None, blank or null-like input gives
None; otherwise float of the comma-stripped string form, falling back to
float of the value itself, and None when both raise. -/
def to_decimal (x : Value) : Except PyErr (Option Rat) :=
  if x = Value.none ∨ pyStrip (pyStr x) = "" ∨ pyLower (pyStr x) = "null" then Except.ok Option.none
  else
    match floatOfString (replaceChar (pyStr x) ',' "") with
    | Except.ok q => Except.ok (Option.some q)
    | Except.error _ =>
      match pyFloatOf x with
      | Except.ok q => Except.ok (Option.some q)
      | Except.error _ => Except.ok Option.none

/-- to_int from the script: int of float of the comma-stripped string
form, None when that raises. -/
def to_int (x : Value) : Except PyErr (Option Int) :=
  match floatOfString (replaceChar (pyStr x) ',' "") with
  | Except.ok q => Except.ok (Option.some (ratTrunc q))
  | Except.error _ => Except.ok Option.none

/-- The format cascade of to_date, in source order: %Y-%m-%d, %Y/%m/%d,
%Y%m%d, %d-%m-%Y, %d/%m/%Y. -/
def dateFormatCascade (s : String) : Option (Nat × Nat × Nat) :=
  parseSepYMD '-' s <|> parseSepYMD '/' s <|> parseCompact s <|>
    parseSepDMY '-' s <|> parseSepDMY '/' s

/-- to_date from the script: falsy input gives None; otherwise the
stripped string form is tried against the format cascade and reformatted
as %Y-%m-%d, then against fromisoformat with Z replaced by +00:00; None
when everything fails. -/
def to_date (x : Value) : Except PyErr (Option String) :=
  if pyTruthy x = false then Except.ok Option.none
  else
    match dateFormatCascade (pyStrip (pyStr x)) with
    | Option.some (y, m, d) => Except.ok (Option.some (fmtDate y m d))
    | Option.none =>
      match fromiso (replaceChar (pyStrip (pyStr x)) 'Z' "+00:00") with
      | Option.some (y, m, d, _, _, _) => Except.ok (Option.some (fmtDate y m d))
      | Option.none => Except.ok Option.none

/-- to_datetime from the script: falsy input gives None; otherwise the
stripped string form is tried against %Y-%m-%d %H:%M:%S and
%Y/%m/%d %H:%M:%S, then against fromisoformat; the result is reformatted
as %Y-%m-%d %H:%M:%S; None when everything fails. -/
def to_datetime (x : Value) : Except PyErr (Option String) :=
  if pyTruthy x = false then Except.ok Option.none
  else
    match parseSepYMDHMS '-' (pyStrip (pyStr x)) <|> parseSepYMDHMS '/' (pyStrip (pyStr x)) with
    | Option.some (y, m, d, hh, mm, ss) => Except.ok (Option.some (fmtDateTime y m d hh mm ss))
    | Option.none =>
      match fromiso (replaceChar (pyStrip (pyStr x)) 'Z' "+00:00") with
      | Option.some (y, m, d, hh, mm, ss) => Except.ok (Option.some (fmtDateTime y m d hh mm ss))
      | Option.none => Except.ok Option.none

/-- A JSON value, the shape of the parsed response body in fetch_api. -/
inductive J : Type where
  | null : J
  | bool : Bool → J
  | num : Rat → J
  | str : String → J
  | arr : List J → J
  | obj : List (String × J) → J
deriving Repr

/-- The loop body of extract_list: walk the candidate keys in order and
return the first value that is a list; an absent key or a non-list value
moves on to the next key. -/
def extractGo : List String → List (String × J) → List J
  | [], _ => []
  | k :: ks, fs =>
    match List.lookup k fs with
    | Option.some (J.arr xs) => xs
    | _ => extractGo ks fs

/-- extract_list from the script: a list payload is returned as is; on a
dict the keys dataList, result, data are tried in that order and the
first list value wins; everything else gives the empty list. -/
def extract_list (payload : J) : List J :=
  match payload with
  | J.arr xs => xs
  | J.obj fs => extractGo ["dataList", "result", "data"] fs
  | _ => []

/-- One mapped row, the dict literal built by map_row; field names are
the column names of the target table.  Every field holds the Python
value stored in the dict. -/
structure SyncRecord : Type where
  DEVICE_NO : Value
  PROJECT_NAME : Value
  MECHANICAL_NO : Value
  DATE_STR : Value
  RENT_TYPE : Value
  TYPE_NAME : Value
  CAR_TYPE : Value
  VALID_DURATION : Value
  IDLING_DURATION : Value
  VALID_PERCENT : Value
  DAY_OIL : Value
  DAY_REFUEL : Value
  DAY_MILEAGE : Value
  WORKHOUR_AVG_OIL : Value
  TRANSPORT_AVG_OIL : Value
  COMPANY_ASSETS : Value
  BELONG_LAND : Value
  CREATE_TIME : Value
  SCORE : Value
  SUMMARY : Value
deriving DecidableEq, Repr

/-- A float-or-None Python value from an Option. -/
def optFloat : Option Rat → Value
  | Option.some q => Value.float q
  | Option.none => Value.none

/-- An int-or-None Python value from an Option. -/
def optInt : Option Int → Value
  | Option.some n => Value.int n
  | Option.none => Value.none

/-- A str-or-None Python value from an Option. -/
def optStr : Option String → Value
  | Option.some s => Value.str s
  | Option.none => Value.none

/-- Python `a or date_str` where a is the str-or-None result of to_date:
the fallback is used when a is None or the empty string. -/
def pyOrD (a : Option String) (date_str : String) : String :=
  match a with
  | Option.some s => if s = "" then date_str else s
  | Option.none => date_str

/-- Python slicing v[:64]: defined on strings (first 64 characters),
TypeError on the other scalars. -/
def pySlice64 : Value → Except PyErr Value
  | Value.str s => Except.ok (Value.str (⟨s.toList.take 64⟩ : String))
  | _ => Except.error PyErr.typeError

/-- map_row from the script.  The only fallible step is the [:64] slice
applied to (r.get(deviceNo) or r.get(DEVICE_NO) or the empty string);
every other field is built by the total coercions or passed through. -/
def map_row (r : Dict) (date_str : String) : Except PyErr SyncRecord := do
  let dev ← pySlice64 (pyOr (dget r "deviceNo") (pyOr (dget r "DEVICE_NO") (Value.str "")))
  let dOpt ← to_date (dget r "dateStr")
  let vdur ← to_decimal (dget r "validDuration")
  let idur ← to_decimal (dget r "idlingDuration")
  let vpct ← to_decimal (dget r "validPercent")
  let doil ← to_decimal (dget r "dayOil")
  let dref ← to_decimal (dget r "dayRefuel")
  let dmil ← to_decimal (dget r "dayMileage")
  let waoil ← to_decimal (dget r "workhourAvgOil")
  let taoil ← to_decimal (dget r "transportAvgOil")
  let ctime ← to_datetime (dget r "createTime")
  let sc ← to_int (dget r "score")
  Except.ok
    { DEVICE_NO := dev
      PROJECT_NAME := dget r "projectName"
      MECHANICAL_NO := dget r "mechanicalNo"
      DATE_STR := Value.str (pyOrD dOpt date_str)
      RENT_TYPE :=
        if dget r "rentType" = Value.none then Value.none
        else Value.str (pyStr (dget r "rentType"))
      TYPE_NAME := dget r "typeName"
      CAR_TYPE := pyOr (dget r "carType") (dget r "catType")
      VALID_DURATION := optFloat vdur
      IDLING_DURATION := optFloat idur
      VALID_PERCENT := optFloat vpct
      DAY_OIL := optFloat doil
      DAY_REFUEL := optFloat dref
      DAY_MILEAGE := optFloat dmil
      WORKHOUR_AVG_OIL := optFloat waoil
      TRANSPORT_AVG_OIL := optFloat taoil
      COMPANY_ASSETS := dget r "companyAssets"
      BELONG_LAND := dget r "belongLand"
      CREATE_TIME := optStr ctime
      SCORE := optInt sc
      SUMMARY := dget r "summary" }

/-- The upsert key of a row: the (DEVICE_NO, DATE_STR) pair, the columns
of the UNIQUE KEY UK_DEVICE_DATE in the table DDL. -/
def keyOf (r : SyncRecord) : Value × Value := (r.DEVICE_NO, r.DATE_STR)

/-- Whether the table holds a row with the given key. -/
def hasKey (t : List SyncRecord) (k : Value × Value) : Bool :=
  t.any (fun x => decide (keyOf x = k))

/-- One row of the UPSERT_SQL statement: INSERT ... ON DUPLICATE KEY
UPDATE.  On a key collision every non-key column is overwritten with the
incoming value, which together with the equal key columns replaces the
whole row in place; otherwise the row is appended. -/
def upsertRow (t : List SyncRecord) (r : SyncRecord) : List SyncRecord :=
  if hasKey t (keyOf r) then
    t.map (fun x => if keyOf x = keyOf r then r else x)
  else t ++ [r]

/-- cur.executemany(UPSERT_SQL, rows): the rows are applied in order. -/
def applyBatch (t : List SyncRecord) (rs : List SyncRecord) : List SyncRecord :=
  rs.foldl upsertRow t

/-- The key uniqueness invariant the UNIQUE KEY constraint maintains:
no two rows share a (DEVICE_NO, DATE_STR) pair. -/
def uniqKeys (t : List SyncRecord) : Prop := (t.map keyOf).Nodup

instance (t : List SyncRecord) : Decidable (uniqKeys t) := by
  unfold uniqKeys; infer_instance

/-- One observable database action of the upsert function. -/
inductive DbOp : Type where
  | connect : DbOp
  | ensureTable : DbOp
  | execBatch : List SyncRecord → DbOp
  | commit : DbOp
  | closeCursor : DbOp
  | closeConn : DbOp
deriving DecidableEq, Repr

/-- The upsert function from the script, as its trace of database
actions together with its Python return value (the function body has no
return statement with a value, so it returns None on every path).  An
empty batch returns before get_conn; otherwise the successful path is
modelled (the error path calls sys.exit and leaves no table change). -/
def upsertOps (rows : List SyncRecord) : List DbOp × Value :=
  if rows.isEmpty then ([], Value.none)
  else
    ([DbOp.connect, DbOp.ensureTable, DbOp.execBatch rows, DbOp.commit,
      DbOp.closeCursor, DbOp.closeConn], Value.none)

/-- The filter applied in main before mapping: keep a raw record only
when r.get(deviceNo) or r.get(DEVICE_NO) is truthy. -/
def deviceKeyOk (r : Dict) : Bool :=
  pyTruthy (pyOr (dget r "deviceNo") (dget r "DEVICE_NO"))

/-- The pure part of main for one date, after fetch_api has produced the
raw record list: filter records lacking a device key, map them, drop
mapped rows with a falsy DATE_STR, then run upsert; the result is the
database action trace and the return value of upsert. -/
def runPipeline (raw : List Dict) (date_str : String) : Except PyErr (List DbOp × Value) := do
  let mapped ← (raw.filter deviceKeyOk).mapM (fun r => map_row r date_str)
  let ready := mapped.filter (fun m => pyTruthy m.DATE_STR)
  Except.ok (upsertOps ready)

/-- target_date_str from the script: the first command line argument,
stripped, when present and non-blank; otherwise the Asia/Jakarta
yesterday string, which the embedding takes as a parameter since it is a
pure function of the wall clock. -/
def target_date_str (argv : List String) (yesterday : String) : String :=
  match argv with
  | _ :: a1 :: _ => if pyStrip a1 ≠ "" then pyStrip a1 else yesterday
  | _ => yesterday

/-- The dates main processes in one invocation: exactly one, the module
level DATE_STR, regardless of how many arguments were passed. -/
def mainDates (argv : List String) (yesterday : String) : List String :=
  [target_date_str argv yesterday]

/-- Modelled from the spec: the successor of a YYYY-MM-DD date string,
used only to phrase the day-by-day inclusive range of the claimed
multi-date mode, which has no counterpart in the source. -/
def nextDateStr (s : String) : String :=
  match parseSepYMD '-' s with
  | Option.some (y, m, d) =>
    if d < daysInMonth y m then fmtDate y m (d + 1)
    else if m < 12 then fmtDate y (m + 1) 1
    else fmtDate (y + 1) 1 1
  | Option.none => s

/-- Modelled from the spec: iterate day by day from the start date to the
end date inclusive (fuelled to stay structurally recursive). -/
def specDateRange : Nat → String → String → List String
  | 0, _, _ => []
  | fuel + 1, s, e => if s = e then [s] else s :: specDateRange fuel (nextDateStr s) e

/-- Modelled from the spec: the inclusive start/end date range the two
argument mode is claimed to process. -/
def specRangeDates (s e : String) : List String := specDateRange 40000 s e

/-- The key column of every row, in table order. -/
def tableKeys (t : List SyncRecord) : List (Value × Value) := t.map keyOf

/-- The first row of the table carrying the given key (the only one under
the uniqueness invariant). -/
def findRow (k : Value × Value) (t : List SyncRecord) : Option SyncRecord :=
  t.find? (fun x => decide (keyOf x = k))

/-- The last record of a batch carrying the given key, the one whose
values survive the batched upsert. -/
def lastUpsert (k : Value × Value) : List SyncRecord → Option SyncRecord
  | [] => Option.none
  | r :: rs =>
    match lastUpsert k rs with
    | Option.some r2 => Option.some r2
    | Option.none => if keyOf r = k then Option.some r else Option.none

/-- A row with the given key columns and every other column None, the
shape map_row produces for a raw record that only carries a device
number; used by the concrete witnesses. -/
def blankRec (dev date : Value) : SyncRecord :=
  { DEVICE_NO := dev, PROJECT_NAME := Value.none, MECHANICAL_NO := Value.none,
    DATE_STR := date, RENT_TYPE := Value.none, TYPE_NAME := Value.none,
    CAR_TYPE := Value.none, VALID_DURATION := Value.none, IDLING_DURATION := Value.none,
    VALID_PERCENT := Value.none, DAY_OIL := Value.none, DAY_REFUEL := Value.none,
    DAY_MILEAGE := Value.none, WORKHOUR_AVG_OIL := Value.none,
    TRANSPORT_AVG_OIL := Value.none, COMPANY_ASSETS := Value.none,
    BELONG_LAND := Value.none, CREATE_TIME := Value.none, SCORE := Value.none,
    SUMMARY := Value.none }

/-- Witness fixture: a mapped row for device D1 on 2025-09-21. -/
def recA : SyncRecord := blankRec (Value.str "D1") (Value.str "2025-09-21")

/-- Witness fixture: a mapped row for device D2 on 2025-09-21. -/
def recB : SyncRecord := blankRec (Value.str "D2") (Value.str "2025-09-21")

/-- Witness fixture: a second fetch of D1 for the same date with a
changed column. -/
def recA2 : SyncRecord := { recA with SCORE := Value.int 88 }

/-- Witness fixture: one batch holding two devices and a duplicate key. -/
def batchW : List SyncRecord := [recA, recB, recA2]

/-- Counterexample fixture: a raw record whose deviceNo is a truthy
integer, which the [:64] slice cannot handle. -/
def rawC4 : Dict := [("deviceNo", Value.int 5)]

/-- Witness fixture: a raw record with a plain string device number and
nothing else. -/
def rawDev : Dict := [("deviceNo", Value.str "D1")]

/-- Counterexample fixture: a raw record whose rentType is an integer. -/
def rawC8 : Dict := [("deviceNo", Value.str "D1"), ("rentType", Value.int 3)]

/-- The row map_row produces for rawC8: rentType has been stringified. -/
def recC8 : SyncRecord :=
  { blankRec (Value.str "D1") (Value.str "2025-09-21") with RENT_TYPE := Value.str "3" }

/-- Witness fixture: a raw record with no carType but a catType. -/
def rawC10 : Dict := [("deviceNo", Value.str "D1"), ("catType", Value.str "EXC")]

/-- The row map_row produces for rawC10: CAR_TYPE taken from catType. -/
def recC10 : SyncRecord :=
  { blankRec (Value.str "D1") (Value.str "2025-09-21") with CAR_TYPE := Value.str "EXC" }

/-- Witness fixture: a raw record lacking any device identifier. -/
def rawC9 : Dict := [("projectName", Value.str "P")]

/-- Witness fixture: a response dict holding lists under both dataList
and result. -/
def fsC6 : List (String × J) := [("dataList", J.arr [J.num 1]), ("result", J.arr [J.num 2])]

theorem keyOf_overwrite (r x : SyncRecord) :
    keyOf (if keyOf x = keyOf r then r else x) = keyOf x := by
  by_cases h : keyOf x = keyOf r
  · simp [h]
  · simp [h]

theorem hasKey_iff (t : List SyncRecord) (k : Value × Value) :
    hasKey t k = true ↔ k ∈ tableKeys t := by
  unfold hasKey tableKeys
  rw [List.any_eq_true]
  constructor
  · rintro ⟨x, hx, hp⟩
    exact List.mem_map.mpr ⟨x, hx, of_decide_eq_true hp⟩
  · intro h
    rcases List.mem_map.mp h with ⟨x, hx, he⟩
    exact ⟨x, hx, decide_eq_true he⟩

theorem tableKeys_map_overwrite (t : List SyncRecord) (r : SyncRecord) :
    tableKeys (t.map (fun x => if keyOf x = keyOf r then r else x)) = tableKeys t := by
  induction t with
  | nil => rfl
  | cons a t ih =>
    simp only [tableKeys, List.map] at *
    rw [keyOf_overwrite, ih]

theorem tableKeys_upsertRow_pos (t : List SyncRecord) (r : SyncRecord)
    (h : hasKey t (keyOf r) = true) :
    tableKeys (upsertRow t r) = tableKeys t := by
  unfold upsertRow
  rw [if_pos h]
  exact tableKeys_map_overwrite t r

theorem tableKeys_upsertRow_neg (t : List SyncRecord) (r : SyncRecord)
    (h : hasKey t (keyOf r) = false) :
    tableKeys (upsertRow t r) = tableKeys t ++ [keyOf r] := by
  unfold upsertRow
  rw [if_neg (by simp [h])]
  simp [tableKeys]

theorem mem_tableKeys_upsertRow (t : List SyncRecord) (r : SyncRecord) (k : Value × Value)
    (h : k ∈ tableKeys t) : k ∈ tableKeys (upsertRow t r) := by
  cases hk : hasKey t (keyOf r) with
  | true => rw [tableKeys_upsertRow_pos t r hk]; exact h
  | false => rw [tableKeys_upsertRow_neg t r hk]; exact List.mem_append_left _ h

theorem self_mem_tableKeys_upsertRow (t : List SyncRecord) (r : SyncRecord) :
    keyOf r ∈ tableKeys (upsertRow t r) := by
  cases hk : hasKey t (keyOf r) with
  | true => rw [tableKeys_upsertRow_pos t r hk]; exact (hasKey_iff t (keyOf r)).mp hk
  | false => rw [tableKeys_upsertRow_neg t r hk]; simp

theorem mem_tableKeys_applyBatch (rs : List SyncRecord) (t : List SyncRecord)
    (k : Value × Value) (h : k ∈ tableKeys t) : k ∈ tableKeys (applyBatch t rs) := by
  induction rs generalizing t with
  | nil => exact h
  | cons r rs ih => exact ih (upsertRow t r) (mem_tableKeys_upsertRow t r k h)

theorem mem_tableKeys_applyBatch_of_mem (rs : List SyncRecord) (t : List SyncRecord)
    (r : SyncRecord) (h : r ∈ rs) : keyOf r ∈ tableKeys (applyBatch t rs) := by
  induction rs generalizing t with
  | nil => cases h
  | cons a rs ih =>
    cases h with
    | head =>
      exact mem_tableKeys_applyBatch rs (upsertRow t r) (keyOf r)
        (self_mem_tableKeys_upsertRow t r)
    | tail _ h2 => exact ih (upsertRow t a) h2

theorem tableKeys_applyBatch_stable (rs : List SyncRecord) (t : List SyncRecord)
    (h : ∀ r ∈ rs, keyOf r ∈ tableKeys t) : tableKeys (applyBatch t rs) = tableKeys t := by
  induction rs generalizing t with
  | nil => rfl
  | cons r rs ih =>
    have hk : hasKey t (keyOf r) = true :=
      (hasKey_iff t (keyOf r)).mpr (h r (List.mem_cons_self r rs))
    have hkeys : tableKeys (upsertRow t r) = tableKeys t := tableKeys_upsertRow_pos t r hk
    have : applyBatch t (r :: rs) = applyBatch (upsertRow t r) rs := rfl
    rw [this, ih (upsertRow t r) (fun x hx => by
      rw [hkeys]; exact h x (List.mem_cons_of_mem r hx))]
    exact hkeys

theorem findRow_eq_none_of_not_hasKey (t : List SyncRecord) (k : Value × Value)
    (h : hasKey t k = false) : findRow k t = Option.none := by
  unfold findRow
  rw [List.find?_eq_none]
  intro x hx
  intro hp
  have : hasKey t k = true := (hasKey_iff t k).mpr (by
    exact List.mem_map.mpr ⟨x, hx, of_decide_eq_true hp⟩)
  rw [h] at this
  cases this

theorem findRow_map_overwrite_self (t : List SyncRecord) (r : SyncRecord)
    (h : hasKey t (keyOf r) = true) :
    findRow (keyOf r) (t.map (fun x => if keyOf x = keyOf r then r else x)) = Option.some r := by
  induction t with
  | nil => cases h
  | cons a t ih =>
    by_cases ha : keyOf a = keyOf r
    · unfold findRow
      simp only [List.map, if_pos ha]
      exact List.find?_cons_of_pos _ (by simp)
    · unfold findRow
      simp only [List.map, if_neg ha]
      rw [List.find?_cons_of_neg _ (by simp only [decide_eq_true_eq]; exact ha)]
      have h2 : hasKey t (keyOf r) = true := by
        unfold hasKey at h
        simp only [List.any_cons, decide_eq_false ha, Bool.false_or] at h
        exact h
      exact ih h2

theorem findRow_map_overwrite_other (t : List SyncRecord) (r : SyncRecord)
    (k : Value × Value) (h : k ≠ keyOf r) :
    findRow k (t.map (fun x => if keyOf x = keyOf r then r else x)) = findRow k t := by
  induction t with
  | nil => rfl
  | cons a t ih =>
    by_cases ha : keyOf a = keyOf r
    · unfold findRow at ih ⊢
      simp only [List.map, if_pos ha]
      rw [List.find?_cons_of_neg _
          (by simp only [decide_eq_true_eq]; exact fun he => h he.symm),
        List.find?_cons_of_neg _
          (by simp only [decide_eq_true_eq]; exact fun he => h (ha.symm.trans he).symm)]
      exact ih
    · unfold findRow at ih ⊢
      simp only [List.map, if_neg ha]
      by_cases hd : keyOf a = k
      · rw [List.find?_cons_of_pos _ (by simp only [decide_eq_true_eq]; exact hd),
          List.find?_cons_of_pos _ (by simp only [decide_eq_true_eq]; exact hd)]
      · rw [List.find?_cons_of_neg _ (by simp only [decide_eq_true_eq]; exact hd),
          List.find?_cons_of_neg _ (by simp only [decide_eq_true_eq]; exact hd)]
        exact ih

theorem findRow_upsertRow_self (t : List SyncRecord) (r : SyncRecord) :
    findRow (keyOf r) (upsertRow t r) = Option.some r := by
  by_cases hk : hasKey t (keyOf r) = true
  · unfold upsertRow
    rw [if_pos hk]
    exact findRow_map_overwrite_self t r hk
  · have hk' : hasKey t (keyOf r) = false := by
      cases hc : hasKey t (keyOf r) with
      | false => rfl
      | true => exact absurd hc hk
    unfold upsertRow
    rw [if_neg hk]
    unfold findRow
    rw [List.find?_append,
      show (t.find? fun x => decide (keyOf x = keyOf r)) = Option.none from
        findRow_eq_none_of_not_hasKey t (keyOf r) hk']
    simp [List.find?]

theorem findRow_upsertRow_other (t : List SyncRecord) (r : SyncRecord)
    (k : Value × Value) (h : k ≠ keyOf r) :
    findRow k (upsertRow t r) = findRow k t := by
  by_cases hk : hasKey t (keyOf r) = true
  · unfold upsertRow
    rw [if_pos hk]
    exact findRow_map_overwrite_other t r k h
  · unfold upsertRow
    rw [if_neg hk]
    unfold findRow
    rw [List.find?_append]
    rw [show ([r].find? fun x => decide (keyOf x = k)) = Option.none from by
      rw [List.find?_eq_none]
      intro x hx
      rw [List.mem_singleton] at hx
      subst hx
      simp only [decide_eq_true_eq]
      exact fun he => h he.symm]
    cases t.find? fun x => decide (keyOf x = k) with
    | none => rfl
    | some x => rfl

theorem findRow_applyBatch (rs : List SyncRecord) (t : List SyncRecord) (k : Value × Value) :
    findRow k (applyBatch t rs) =
      match lastUpsert k rs with
      | Option.some r2 => Option.some r2
      | Option.none => findRow k t := by
  induction rs generalizing t with
  | nil => rfl
  | cons r rs ih =>
    have hstep : applyBatch t (r :: rs) = applyBatch (upsertRow t r) rs := rfl
    rw [hstep, ih (upsertRow t r)]
    cases hl : lastUpsert k rs with
    | some r2 => simp only [lastUpsert, hl]
    | none =>
      simp only [lastUpsert, hl]
      by_cases hr : keyOf r = k
      · rw [if_pos hr, ← hr, findRow_upsertRow_self t r]
      · rw [if_neg hr, findRow_upsertRow_other t r k (fun he => hr he.symm)]

theorem uniqKeys_upsertRow (t : List SyncRecord) (r : SyncRecord)
    (h : uniqKeys t) : uniqKeys (upsertRow t r) := by
  unfold uniqKeys at *
  cases hk : hasKey t (keyOf r) with
  | true =>
    have : tableKeys (upsertRow t r) = tableKeys t := tableKeys_upsertRow_pos t r hk
    unfold tableKeys at this
    rw [this]
    exact h
  | false =>
    have hmem : keyOf r ∉ t.map keyOf := by
      intro hm
      have : hasKey t (keyOf r) = true := (hasKey_iff t (keyOf r)).mpr hm
      rw [hk] at this
      cases this
    have : tableKeys (upsertRow t r) = tableKeys t ++ [keyOf r] := tableKeys_upsertRow_neg t r hk
    unfold tableKeys at this
    rw [this]
    rw [List.nodup_append]
    exact ⟨h, List.nodup_singleton _, by
      intro x hx hy
      rw [List.mem_singleton] at hy
      exact hmem (hy ▸ hx)⟩

theorem uniqKeys_applyBatch (rs : List SyncRecord) (t : List SyncRecord)
    (h : uniqKeys t) : uniqKeys (applyBatch t rs) := by
  induction rs generalizing t with
  | nil => exact h
  | cons r rs ih => exact ih (upsertRow t r) (uniqKeys_upsertRow t r h)

theorem table_ext (t t' : List SyncRecord) (hu : uniqKeys t)
    (hk : tableKeys t = tableKeys t') (hf : ∀ k, findRow k t = findRow k t') : t = t' := by
  induction t generalizing t' with
  | nil =>
    cases t' with
    | nil => rfl
    | cons y ys => cases hk
  | cons x xs ih =>
    cases t' with
    | nil => cases hk
    | cons y ys =>
      have hkey : keyOf x = keyOf y := by
        have := hk
        unfold tableKeys at this
        simp only [List.map] at this
        exact (List.cons.injEq _ _ _ _).mp this |>.1
      have hkeys : tableKeys xs = tableKeys ys := by
        have := hk
        unfold tableKeys at this ⊢
        simp only [List.map] at this
        exact (List.cons.injEq _ _ _ _).mp this |>.2
      have hxy : x = y := by
        have h1 : findRow (keyOf x) (x :: xs) = Option.some x := by
          unfold findRow
          exact List.find?_cons_of_pos _ (by simp)
        have h2 : findRow (keyOf x) (y :: ys) = Option.some y := by
          unfold findRow
          exact List.find?_cons_of_pos _
            (by simp only [decide_eq_true_eq]; exact hkey.symm)
        have h3 := hf (keyOf x)
        rw [h1, h2] at h3
        exact Option.some.inj h3
      have hunotin : keyOf x ∉ tableKeys xs := by
        have h3 := hu
        unfold uniqKeys at h3
        simp only [List.map, List.nodup_cons] at h3
        exact h3.1
      have hutail : uniqKeys xs := by
        have h3 := hu
        unfold uniqKeys at h3
        simp only [List.map, List.nodup_cons] at h3
        exact h3.2
      have hftail : ∀ k, findRow k xs = findRow k ys := by
        intro k
        by_cases hkx : keyOf x = k
        · have hxs : findRow k xs = Option.none := by
            apply findRow_eq_none_of_not_hasKey
            cases hcase : hasKey xs k with
            | false => rfl
            | true =>
              exact absurd (hkx ▸ (hasKey_iff xs k).mp hcase) hunotin
          have hys : findRow k ys = Option.none := by
            apply findRow_eq_none_of_not_hasKey
            cases hcase : hasKey ys k with
            | false => rfl
            | true =>
              have : k ∈ tableKeys ys := (hasKey_iff ys k).mp hcase
              rw [← hkeys] at this
              exact absurd (hkx ▸ this) hunotin
          rw [hxs, hys]
        · have := hf k
          unfold findRow at this ⊢
          simp only [List.find?] at this
          rw [decide_eq_false (fun he : keyOf x = k => hkx he),
            decide_eq_false (fun he : keyOf y = k => hkx (hkey ▸ he))] at this
          exact this
      rw [hxy, ih ys hutail hkeys hftail]

/-- C1: Upsert idempotence.  For every list of mapped records and every
prior table state (every state satisfying the key uniqueness constraint
the table enforces), applying the batched upsert keyed on
(DEVICE_NO, DATE_STR), which overwrites every non-key column, twice in
succession yields the same final table state as applying it once: the
same rows, hence the same row count and the same column values. -/
theorem upsert_batch_idempotent (t rs : List SyncRecord) (h : uniqKeys t) :
    applyBatch (applyBatch t rs) rs = applyBatch t rs := by
  have h1 : uniqKeys (applyBatch t rs) := uniqKeys_applyBatch rs t h
  apply table_ext _ _ (uniqKeys_applyBatch rs (applyBatch t rs) h1)
  · apply tableKeys_applyBatch_stable
    intro r hr
    exact mem_tableKeys_applyBatch_of_mem rs t r hr
  · intro k
    rw [findRow_applyBatch rs (applyBatch t rs) k, findRow_applyBatch rs t k]
    cases hl : lastUpsert k rs with
    | some r2 => rfl
    | none => rfl

theorem countP_key_le_one (t : List SyncRecord) (k : Value × Value)
    (h : uniqKeys t) : t.countP (fun row => decide (keyOf row = k)) ≤ 1 := by
  induction t with
  | nil => simp
  | cons a t ih =>
    unfold uniqKeys at h
    simp only [List.map, List.nodup_cons] at h
    by_cases ha : keyOf a = k
    · have ht : t.countP (fun row => decide (keyOf row = k)) = 0 := by
        rw [List.countP_eq_zero]
        intro x hx hp
        exact h.1 (by
          have hxk : keyOf x = k := of_decide_eq_true hp
          rw [← ha] at hxk
          exact hxk ▸ List.mem_map_of_mem keyOf hx)
      simp [List.countP_cons, ht, ha]
    · simp only [List.countP_cons, decide_eq_false ha, Bool.false_eq_true, if_false,
        Nat.add_zero]
      exact ih h.2

theorem uniqKeys_foldl (batches : List (List SyncRecord)) (t : List SyncRecord)
    (h : uniqKeys t) : uniqKeys (batches.foldl applyBatch t) := by
  induction batches generalizing t with
  | nil => exact h
  | cons b bs ih => exact ih (applyBatch t b) (uniqKeys_applyBatch b t h)

theorem to_decimal_ok (x : Value) : ∃ a, to_decimal x = Except.ok a := by
  unfold to_decimal
  split
  · exact ⟨Option.none, rfl⟩
  · split
    · exact ⟨_, rfl⟩
    · split
      · exact ⟨_, rfl⟩
      · exact ⟨_, rfl⟩

theorem to_int_ok (x : Value) : ∃ a, to_int x = Except.ok a := by
  unfold to_int
  split
  · exact ⟨_, rfl⟩
  · exact ⟨_, rfl⟩

theorem to_date_ok (x : Value) : ∃ a, to_date x = Except.ok a := by
  unfold to_date
  split
  · exact ⟨Option.none, rfl⟩
  · split
    · exact ⟨_, rfl⟩
    · split
      · exact ⟨_, rfl⟩
      · exact ⟨_, rfl⟩

theorem to_datetime_ok (x : Value) : ∃ a, to_datetime x = Except.ok a := by
  unfold to_datetime
  split
  · exact ⟨Option.none, rfl⟩
  · split
    · exact ⟨_, rfl⟩
    · split
      · exact ⟨_, rfl⟩
      · exact ⟨_, rfl⟩

theorem map_row_fields (r : Dict) (d : String) (rec : SyncRecord)
    (h : map_row r d = Except.ok rec) :
    (∃ dOpt, to_date (dget r "dateStr") = Except.ok dOpt ∧
      rec.DATE_STR = Value.str (pyOrD dOpt d)) ∧
    rec.PROJECT_NAME = dget r "projectName" ∧
    rec.MECHANICAL_NO = dget r "mechanicalNo" ∧
    rec.TYPE_NAME = dget r "typeName" ∧
    rec.CAR_TYPE = pyOr (dget r "carType") (dget r "catType") ∧
    rec.COMPANY_ASSETS = dget r "companyAssets" ∧
    rec.BELONG_LAND = dget r "belongLand" ∧
    rec.SUMMARY = dget r "summary" ∧
    rec.RENT_TYPE = (if dget r "rentType" = Value.none then Value.none
      else Value.str (pyStr (dget r "rentType"))) := by
  cases hs : pySlice64 (pyOr (dget r "deviceNo") (pyOr (dget r "DEVICE_NO") (Value.str ""))) with
  | error e =>
    unfold map_row at h
    rw [hs] at h
    cases h
  | ok dev =>
    rcases to_date_ok (dget r "dateStr") with ⟨dOpt, hdate⟩
    rcases to_decimal_ok (dget r "validDuration") with ⟨vdur, h1⟩
    rcases to_decimal_ok (dget r "idlingDuration") with ⟨idur, h2⟩
    rcases to_decimal_ok (dget r "validPercent") with ⟨vpct, h3⟩
    rcases to_decimal_ok (dget r "dayOil") with ⟨doil, h4⟩
    rcases to_decimal_ok (dget r "dayRefuel") with ⟨dref, h5⟩
    rcases to_decimal_ok (dget r "dayMileage") with ⟨dmil, h6⟩
    rcases to_decimal_ok (dget r "workhourAvgOil") with ⟨waoil, h7⟩
    rcases to_decimal_ok (dget r "transportAvgOil") with ⟨taoil, h8⟩
    rcases to_datetime_ok (dget r "createTime") with ⟨ctime, h9⟩
    rcases to_int_ok (dget r "score") with ⟨sc, h10⟩
    unfold map_row at h
    rw [hs, hdate, h1, h2, h3, h4, h5, h6, h7, h8, h9, h10] at h
    cases h
    exact ⟨⟨dOpt, hdate, rfl⟩, rfl, rfl, rfl, rfl, rfl, rfl, rfl, rfl⟩

theorem extractGo_cons (k : String) (ks : List String) (fs : List (String × J)) :
    extractGo (k :: ks) fs =
      match List.lookup k fs with
      | Option.some (J.arr xs) => xs
      | _ => extractGo ks fs := rfl

theorem extractGo_cons_some (k : String) (ks : List String) (fs : List (String × J))
    (xs : List J) (h : List.lookup k fs = Option.some (J.arr xs)) :
    extractGo (k :: ks) fs = xs := by
  rw [extractGo_cons, h]

theorem extractGo_cons_none (k : String) (ks : List String) (fs : List (String × J))
    (h : ∀ ys, List.lookup k fs ≠ Option.some (J.arr ys)) :
    extractGo (k :: ks) fs = extractGo ks fs := by
  rw [extractGo_cons]
  cases hd : List.lookup k fs with
  | none => rfl
  | some v =>
    cases v with
    | arr ys => exact absurd hd (h ys)
    | null => rfl
    | bool b => rfl
    | num q => rfl
    | str s => rfl
    | obj gs => rfl

/-- C1 witness: the idempotence theorem applied to a concrete prior
table holding device D2 and a concrete batch with a duplicate key. -/
theorem upsert_batch_idempotent_witness :
    uniqKeys [recB] ∧
      applyBatch (applyBatch [recB] batchW) batchW = applyBatch [recB] batchW :=
  ⟨by decide, upsert_batch_idempotent [recB] batchW (by decide)⟩

/-- C2: Key uniqueness.  Starting from the empty table, after any
sequence of batched upserts, at most one row carries a given
(DEVICE_NO, DATE_STR) pair. -/
theorem key_uniqueness_any_runs (batches : List (List SyncRecord)) (D T : Value) :
    ((batches.foldl applyBatch []).countP
      (fun row => decide (row.DEVICE_NO = D ∧ row.DATE_STR = T))) ≤ 1 := by
  have hu : uniqKeys (batches.foldl applyBatch []) :=
    uniqKeys_foldl batches [] (by unfold uniqKeys; simp)
  rw [List.countP_congr (q := fun row => decide (keyOf row = (D, T))) (by
    intro x hx
    simp only [decide_eq_true_eq]
    unfold keyOf
    rw [Prod.mk.injEq])]
  exact countP_key_le_one _ _ hu

/-- C3: Coercion totality.  On every scalar input, including None, the
empty string, null-like strings and malformed numeric or date text, each
of to_decimal, to_int, to_date and to_datetime returns a value (a typed
result or None) and never raises. -/
theorem coercion_totality (x : Value) :
    (∃ a, to_decimal x = Except.ok a) ∧ (∃ b, to_int x = Except.ok b) ∧
      (∃ c, to_date x = Except.ok c) ∧ (∃ e, to_datetime x = Except.ok e) :=
  ⟨to_decimal_ok x, to_int_ok x, to_date_ok x, to_datetime_ok x⟩

/-- C4 counterexample: map_row is not total on arbitrary scalar values;
a raw record whose deviceNo is the integer 5 makes the [:64] slice raise
TypeError, so the whole record fails instead of degrading to missing. -/
theorem map_row_totality_counterexample :
    map_row rawC4 "2025-09-21" = Except.error PyErr.typeError := by rfl

/-- C4 (amended): map_row never raises provided the device value it
slices (the first truthy of deviceNo and DEVICE_NO, defaulting to the
empty string) is a string; in particular for every record whose device
fields are strings or absent.  All other fields are handled totally. -/
theorem map_row_total_on_string_device (r : Dict) (d : String)
    (h : ∃ s, pyOr (dget r "deviceNo") (pyOr (dget r "DEVICE_NO") (Value.str "")) = Value.str s) :
    ∃ rec, map_row r d = Except.ok rec := by
  rcases h with ⟨s, hs⟩
  rcases to_date_ok (dget r "dateStr") with ⟨dOpt, hdate⟩
  rcases to_decimal_ok (dget r "validDuration") with ⟨vdur, h1⟩
  rcases to_decimal_ok (dget r "idlingDuration") with ⟨idur, h2⟩
  rcases to_decimal_ok (dget r "validPercent") with ⟨vpct, h3⟩
  rcases to_decimal_ok (dget r "dayOil") with ⟨doil, h4⟩
  rcases to_decimal_ok (dget r "dayRefuel") with ⟨dref, h5⟩
  rcases to_decimal_ok (dget r "dayMileage") with ⟨dmil, h6⟩
  rcases to_decimal_ok (dget r "workhourAvgOil") with ⟨waoil, h7⟩
  rcases to_decimal_ok (dget r "transportAvgOil") with ⟨taoil, h8⟩
  rcases to_datetime_ok (dget r "createTime") with ⟨ctime, h9⟩
  rcases to_int_ok (dget r "score") with ⟨sc, h10⟩
  cases hm : map_row r d with
  | ok rec => exact ⟨rec, rfl⟩
  | error e =>
    exfalso
    unfold map_row at hm
    rw [hs, hdate, h1, h2, h3, h4, h5, h6, h7, h8, h9, h10] at hm
    cases hm

/-- C4 witness: the amended theorem applied to a record with the string
device number D1. -/
theorem map_row_total_on_string_device_witness :
    (∃ s, pyOr (dget rawDev "deviceNo") (pyOr (dget rawDev "DEVICE_NO") (Value.str "")) =
      Value.str s) ∧ (∃ rec, map_row rawDev "2025-09-21" = Except.ok rec) :=
  ⟨⟨"D1", rfl⟩, map_row_total_on_string_device rawDev "2025-09-21" ⟨"D1", rfl⟩⟩

/-- C5 counterexample: invoked with the two arguments 2025-09-01 and
2025-09-03, the program processes exactly the single date given by the
first argument, not the three-day inclusive range the claim describes. -/
theorem range_mode_counterexample :
    mainDates ["sync_xingxiu_data.py", "2025-09-01", "2025-09-03"] "2025-09-20" =
        ["2025-09-01"] ∧
      specRangeDates "2025-09-01" "2025-09-03" =
        ["2025-09-01", "2025-09-02", "2025-09-03"] ∧
      mainDates ["sync_xingxiu_data.py", "2025-09-01", "2025-09-03"] "2025-09-20" ≠
        specRangeDates "2025-09-01" "2025-09-03" := by
  exact ⟨by decide, by decide, by decide⟩

/-- C5 (amended): with two (or more) arguments, only the first argument,
stripped, is used, as the single target date; the remaining arguments
are ignored and exactly one day is processed. -/
theorem two_args_single_date (p s e : String) (rest : List String) (y : String)
    (h : pyStrip s ≠ "") :
    mainDates (p :: s :: e :: rest) y = [pyStrip s] := by
  show [if pyStrip s ≠ "" then pyStrip s else y] = [pyStrip s]
  rw [if_pos h]

/-- C5 witness: the amended theorem applied to a concrete two-argument
command line. -/
theorem two_args_single_date_witness :
    pyStrip "2025-09-01" ≠ "" ∧
      mainDates ["prog", "2025-09-01", "2025-09-03"] "2025-01-01" = ["2025-09-01"] := by
  constructor
  · decide
  · rw [two_args_single_date "prog" "2025-09-01" "2025-09-03" [] "2025-01-01" (by decide)]
    decide

/-- C6: List extraction precedence.  A list payload is returned as is; on
a dict the first of dataList, result, data holding a list wins, so with
both dataList and result present the dataList contents are returned; when
no case yields a list the result is the empty list. -/
theorem extract_list_precedence :
    (∀ xs, extract_list (J.arr xs) = xs) ∧
    (∀ fs xs, List.lookup "dataList" fs = Option.some (J.arr xs) →
      extract_list (J.obj fs) = xs) ∧
    (∀ fs xs, (∀ ys, List.lookup "dataList" fs ≠ Option.some (J.arr ys)) →
      List.lookup "result" fs = Option.some (J.arr xs) → extract_list (J.obj fs) = xs) ∧
    (∀ fs xs, (∀ ys, List.lookup "dataList" fs ≠ Option.some (J.arr ys)) →
      (∀ ys, List.lookup "result" fs ≠ Option.some (J.arr ys)) →
      List.lookup "data" fs = Option.some (J.arr xs) → extract_list (J.obj fs) = xs) ∧
    (∀ fs, (∀ k, k ∈ (["dataList", "result", "data"] : List String) →
      ∀ ys, List.lookup k fs ≠ Option.some (J.arr ys)) → extract_list (J.obj fs) = []) ∧
    (extract_list J.null = [] ∧ (∀ b, extract_list (J.bool b) = []) ∧
      (∀ q, extract_list (J.num q) = []) ∧ (∀ s, extract_list (J.str s) = [])) := by
  refine ⟨fun xs => rfl, ?_, ?_, ?_, ?_, rfl, fun b => rfl, fun q => rfl, fun s => rfl⟩
  · intro fs xs h
    show extractGo ["dataList", "result", "data"] fs = xs
    exact extractGo_cons_some _ _ _ _ h
  · intro fs xs h1 h2
    show extractGo ["dataList", "result", "data"] fs = xs
    rw [extractGo_cons_none _ _ _ h1]
    exact extractGo_cons_some _ _ _ _ h2
  · intro fs xs h1 h2 h3
    show extractGo ["dataList", "result", "data"] fs = xs
    rw [extractGo_cons_none _ _ _ h1, extractGo_cons_none _ _ _ h2]
    exact extractGo_cons_some _ _ _ _ h3
  · intro fs h
    show extractGo ["dataList", "result", "data"] fs = []
    rw [extractGo_cons_none _ _ _ (h _ (by simp)),
      extractGo_cons_none _ _ _ (h _ (by simp)),
      extractGo_cons_none _ _ _ (h _ (by simp))]
    rfl

/-- C6 witness: the precedence theorem applied to a dict holding lists
under both dataList and result returns the dataList contents. -/
theorem extract_list_precedence_witness :
    List.lookup "dataList" fsC6 = Option.some (J.arr [J.num 1]) ∧
      extract_list (J.obj fsC6) = [J.num 1] :=
  ⟨rfl, extract_list_precedence.2.1 fsC6 [J.num 1] rfl⟩

/-- C7: Date fallback.  When the per-record date field is absent or not
parseable (to_date returns None), the mapped row carries the fallback
date the batch was fetched for. -/
theorem date_fallback (r : Dict) (d : String) (rec : SyncRecord)
    (h : map_row r d = Except.ok rec)
    (hd : to_date (dget r "dateStr") = Except.ok Option.none) :
    rec.DATE_STR = Value.str d := by
  rcases (map_row_fields r d rec h).1 with ⟨dOpt, hdate, hds⟩
  rw [hdate] at hd
  injection hd with hd2
  subst hd2
  exact hds

/-- C7 witness: the fallback theorem applied to a raw record with no
dateStr field at all, fetched for 2025-09-21. -/
theorem date_fallback_witness :
    map_row rawDev "2025-09-21" = Except.ok recA ∧
      to_date (dget rawDev "dateStr") = Except.ok Option.none ∧
      recA.DATE_STR = Value.str "2025-09-21" := by
  have hm : map_row rawDev "2025-09-21" = Except.ok recA := by rfl
  exact ⟨hm, by rfl, date_fallback rawDev "2025-09-21" recA hm (by rfl)⟩

/-- C8 counterexample: not every categorical field passes through
unchanged; a rentType of integer 3 is stored as the string 3, a type
conversion. -/
theorem passthrough_counterexample :
    map_row rawC8 "2025-09-21" = Except.ok recC8 ∧
      dget rawC8 "rentType" = Value.int 3 ∧
      recC8.RENT_TYPE = Value.str "3" ∧
      recC8.RENT_TYPE ≠ dget rawC8 "rentType" := by
  exact ⟨by rfl, by rfl, by rfl, by decide⟩

/-- C8 (amended): project_name, mechanical_no, type_name,
company_assets, belong_land and summary pass through unchanged; car_type
passes through unchanged only when the raw carType value is truthy (else
the alternate catType is used); rent_type is replaced by its string
representation when present (so it is unchanged only when already a
string) and stays None when absent. -/
theorem passthrough_amended (r : Dict) (d : String) (rec : SyncRecord)
    (h : map_row r d = Except.ok rec) :
    rec.PROJECT_NAME = dget r "projectName" ∧
    rec.MECHANICAL_NO = dget r "mechanicalNo" ∧
    rec.TYPE_NAME = dget r "typeName" ∧
    rec.COMPANY_ASSETS = dget r "companyAssets" ∧
    rec.BELONG_LAND = dget r "belongLand" ∧
    rec.SUMMARY = dget r "summary" ∧
    (pyTruthy (dget r "carType") = true → rec.CAR_TYPE = dget r "carType") ∧
    (dget r "rentType" = Value.none → rec.RENT_TYPE = Value.none) ∧
    (dget r "rentType" ≠ Value.none →
      rec.RENT_TYPE = Value.str (pyStr (dget r "rentType"))) := by
  have hf := map_row_fields r d rec h
  rcases hf with ⟨_, hp, hmn, htn, hct, hca, hbl, hsu, hrt⟩
  refine ⟨hp, hmn, htn, hca, hbl, hsu, ?_, ?_, ?_⟩
  · intro htr
    rw [hct]
    unfold pyOr
    rw [if_pos htr]
  · intro hn
    rw [hrt, if_pos hn]
  · intro hn
    rw [hrt, if_neg hn]

/-- C8 witness: the amended theorem applied to the integer rentType
record, showing the stringified value is what is stored. -/
theorem passthrough_amended_witness :
    map_row rawC8 "2025-09-21" = Except.ok recC8 ∧
      recC8.RENT_TYPE = Value.str (pyStr (dget rawC8 "rentType")) := by
  have hm : map_row rawC8 "2025-09-21" = Except.ok recC8 := by rfl
  exact ⟨hm, (passthrough_amended rawC8 "2025-09-21" recC8 hm).2.2.2.2.2.2.2.2 (by decide)⟩

/-- C9 counterexample: on an empty batch the upsert function performs no
database operation but returns None, not 0 (its body has no return
value on any path). -/
theorem upsert_returns_none_counterexample :
    upsertOps [] = ([], Value.none) ∧ (upsertOps []).2 ≠ Value.int 0 := by
  exact ⟨by rfl, by decide⟩

/-- C9 (amended): on an empty batch the upsert function opens no
connection, performs no database operation and returns None; a batch
fully discarded for missing device identifiers (and in particular an
empty fetch result) runs the pipeline without touching the database. -/
theorem empty_batch_short_circuit (raw : List Dict) (d : String)
    (h : ∀ r ∈ raw, deviceKeyOk r = false) :
    upsertOps [] = ([], Value.none) ∧ runPipeline raw d = Except.ok ([], Value.none) := by
  refine ⟨rfl, ?_⟩
  have hf : raw.filter deviceKeyOk = [] := by
    rw [List.filter_eq_nil_iff]
    intro a ha
    rw [h a ha]
    simp
  unfold runPipeline
  rw [hf]
  rfl

/-- C9 witness: the short-circuit theorem applied to a batch holding one
record with no device identifier. -/
theorem empty_batch_short_circuit_witness :
    (∀ r ∈ [rawC9], deviceKeyOk r = false) ∧
      runPipeline [rawC9] "2025-09-21" = Except.ok ([], Value.none) := by
  have h : ∀ r ∈ [rawC9], deviceKeyOk r = false := by decide
  exact ⟨h, (empty_batch_short_circuit [rawC9] "2025-09-21" h).2⟩

/-- C10: Car type alternate key.  When carType is absent or falsy the
CAR_TYPE field is filled from catType; carType itself is used exactly
when truthy. -/
theorem car_type_alternate_key (r : Dict) (d : String) (rec : SyncRecord)
    (h : map_row r d = Except.ok rec) :
    (pyTruthy (dget r "carType") = false → rec.CAR_TYPE = dget r "catType") ∧
    (pyTruthy (dget r "carType") = true → rec.CAR_TYPE = dget r "carType") := by
  have hc := (map_row_fields r d rec h).2.2.2.2.1
  constructor
  · intro hfalse
    rw [hc]
    unfold pyOr
    rw [if_neg (by rw [hfalse]; exact Bool.false_ne_true)]
  · intro htrue
    rw [hc]
    unfold pyOr
    rw [if_pos htrue]

/-- C10 witness: the alternate key theorem applied to a record with no
carType and catType EXC. -/
theorem car_type_alternate_key_witness :
    map_row rawC10 "2025-09-21" = Except.ok recC10 ∧
      pyTruthy (dget rawC10 "carType") = false ∧
      recC10.CAR_TYPE = dget rawC10 "catType" := by
  have hm : map_row rawC10 "2025-09-21" = Except.ok recC10 := by rfl
  exact ⟨hm, by decide, (car_type_alternate_key rawC10 "2025-09-21" recC10 hm).1 (by decide)⟩

end XingxiuSync
